import Mathlib

/-!
Shallow embedding of the instrumentation core of `baseplate.go`
(packages `thriftbp`, `metricsbp`, `tracing`, `integrations`, `redisbp`),
with theorems checking the natural-language specification against it.

Go `error` values are modelled as `Option GoErr` (`none` = nil).
Side effects (metric emission, span lifecycle events, heap mutation of
redis clients) are made explicit: functions return event lists or pass
heaps, mirroring the Go statements one for one.
-/

/-- A Go `error` value (the dynamic data behind a non-nil `error`
interface): either a plain error or a compiled batch of errors. -/
inductive GoErr
  | simple (msg : String)
  | batch (errors : List GoErr)

namespace Thriftbp

/-- `thriftbp.Middleware`: `func(name string, next thrift.TProcessorFunction) thrift.TProcessorFunction`.
The handler type is abstract (`α`), as `Wrap` never inspects handlers. -/
def Middleware (α : Type) : Type := String → α → α

/-- A `BaseplateProcessor`: an object identity (`pid`, standing for the Go
pointer identity of the processor, which `Wrap` returns unchanged) together
with its processor map, a finite map from thrift method names to
`TProcessorFunction`s, represented as an association list with unique keys. -/
structure Processor (α : Type) where
  pid : Nat
  pmap : List (String × α)

/-- Go map lookup on the association-list representation: first matching key. -/
def lookupMap {α : Type} (m : List (String × α)) (name : String) : Option α :=
  match m with
  | [] => none
  | e :: rest => if e.1 = name then some e.2 else lookupMap rest name

/-- `AddToProcessorMap`: sets the value at the given key, replacing an
existing entry, otherwise adding a new one (Go map assignment). -/
def addToMap {α : Type} (m : List (String × α)) (name : String) (f : α) :
    List (String × α) :=
  match m with
  | [] => [(name, f)]
  | e :: rest => if e.1 = name then (name, f) :: rest else e :: addToMap rest name f

/-- `processor.AddToProcessorMap(name, f)` on the embedded processor. -/
def AddToProcessorMap {α : Type} (p : Processor α) (name : String) (f : α) :
    Processor α :=
  { p with pmap := addToMap p.pmap name f }

/-- The inner loop of `Wrap` for one operation:
`wrapped := processorFunc; for i := len(middlewares) - 1; i >= 0; i-- {
wrapped = middlewares[i](name, wrapped) }`.  Iterating the indices
downward is iterating the reversed list upward, updating `wrapped`. -/
def wrapAll {α : Type} (name : String) (middlewares : List (Middleware α))
    (processorFunc : α) : α :=
  middlewares.reverse.foldl (fun wrapped m => m name wrapped) processorFunc

/-- `thriftbp.Wrap(processor, middlewares...)`: for each entry
`(name, processorFunc)` of the processor map, wrap it with all middlewares
and store the result back via `AddToProcessorMap`; return the processor. -/
def Wrap {α : Type} (processor : Processor α)
    (middlewares : List (Middleware α)) : Processor α :=
  processor.pmap.foldl
    (fun acc entry =>
      AddToProcessorMap acc entry.1 (wrapAll entry.1 middlewares entry.2))
    processor

/-- The spec's composition, written from its words: for middlewares
`[m0, m1, …, mN]`, `wrapped = m0(m1(...mN(original)...))`. -/
def specCompose {α : Type} (name : String) (middlewares : List (Middleware α))
    (original : α) : α :=
  middlewares.foldr (fun m acc => m name acc) original

/-- The `Wrap` loop, as a fold over a list of entries starting from an
arbitrary accumulated processor, so that induction goes through. -/
def wrapFold {α : Type} (middlewares : List (Middleware α))
    (l : List (String × α)) (acc : Processor α) : Processor α :=
  l.foldl
    (fun a entry =>
      AddToProcessorMap a entry.1 (wrapAll entry.1 middlewares entry.2))
    acc

end Thriftbp

namespace Metricsbp

/-- The `Statsd` metrics client.  Its emission behavior is made explicit:
hook callbacks return the `MetricEvent`s they emit through it. -/
abbrev Statsd := Unit

/-- `tracing.SpanType` (server / client / local span kinds). -/
inductive SpanType
  | server
  | client
  | localSpan
deriving DecidableEq

/-- Modelled from the spec: `tracing.SpanType.String()` is not under src/;
the spec's metric path convention `<prefix>.<spanType>.<spanName>` renders
the span type as the middle dotted component. -/
def SpanType.render : SpanType → String
  | .server => "server"
  | .client => "client"
  | .localSpan => "local"

/-- The `metricsbp.SpanHook` struct: the metric path `Name`, the `Statsd`
client `Metrics`, and the `timer` started at construction, represented by
the path of the histogram it observes into
(`NewTimer(metrics.Histogram(name))`). -/
structure SpanHook where
  Name : String
  Metrics : Statsd
  timerPath : String
deriving DecidableEq

/-- The slice of `tracing.Span` that `metricsbp` reads: `span.Name`,
`span.Type()`, and the ordered hook list that `RegisterHook` extends. -/
structure Span where
  name : String
  type : SpanType
  hooks : List SpanHook
deriving DecidableEq

/-- Modelled from the spec: `tracing.Span.RegisterHook` is not under src/;
hooks are an "ordered sequence of Hook instances, insertion order
significant and preserved", so registering appends. -/
def Span.RegisterHook (s : Span) (h : SpanHook) : Span :=
  { s with hooks := s.hooks ++ [h] }

/-- The `success` metric-path suffix constant. -/
def success : String := "success"

/-- The `fail` metric-path suffix constant. -/
def fail : String := "fail"

/-- `metricsbp.newSpanHook(prefix, metrics, span)`:
`name := fmt.Sprintf("%s.%s.%s", prefix, span.Type().String(), span.Name)`;
the timer is started on the histogram at `name`. -/
def newSpanHook (pfx : String) (metrics : Statsd) (span : Span) : SpanHook :=
  let name := pfx ++ "." ++ span.type.render ++ "." ++ span.name
  { Name := name, Metrics := metrics, timerPath := name }

/-- `SpanHook.OnCreateChild`: builds a fresh hook with the parent hook's
own `Name` as the prefix and registers it on the child span.  Returns the
updated child and the Go `error` result (`nil`). -/
def SpanHook.OnCreateChild (h : SpanHook) (child : Span) :
    Span × Option GoErr :=
  let childHook := newSpanHook h.Name h.Metrics child
  (child.RegisterHook childHook, none)

/-- `SpanHook.OnStart` is a nop. -/
def SpanHook.OnStart (_h : SpanHook) (_span : Span) : Option GoErr := none

/-- A metric emission through the `Statsd` client: a histogram sample
(`Timer.ObserveDuration`) or a counter increment (`Counter(path).Add(n)`). -/
inductive MetricEvent
  | histogramObserve (path : String)
  | counterAdd (path : String) (amount : Nat)
deriving DecidableEq

/-- `SpanHook.OnEnd(span, err)`: observe the timer's duration into its
histogram, then add 1 to the counter at `<Name>.fail` if `err != nil`,
else at `<Name>.success`; return `nil`. -/
def SpanHook.OnEnd (h : SpanHook) (_span : Span) (err : Option GoErr) :
    List MetricEvent × Option GoErr :=
  let statusMetricPath :=
    match err with
    | some _ => h.Name ++ "." ++ fail
    | none => h.Name ++ "." ++ success
  ([.histogramObserve h.timerPath, .counterAdd statusMetricPath 1], none)

/-- Total amount added to the counter at `path` by a list of emissions. -/
def counterIncrements (evts : List MetricEvent) (path : String) : Nat :=
  evts.foldl
    (fun acc e =>
      match e with
      | .counterAdd p n => if p = path then acc + n else acc
      | _ => acc) 0

/-- Number of histogram samples emitted (at any path). -/
def histogramSamples (evts : List MetricEvent) : Nat :=
  evts.foldl
    (fun acc e =>
      match e with
      | .histogramObserve _ => acc + 1
      | _ => acc) 0

end Metricsbp

namespace Tracing

/-- The server span handled by the HTTP middleware (its name is all the
middleware reads of it). -/
structure HTTPSpan where
  name : String

/-- The slice of `context.Context` the HTTP middleware threads: the names
of spans attached so far (the request-scoped propagation carrier). -/
structure HTTPCtx where
  spanNames : List String

/-- Modelled from the spec: `StartSpanFromHTTPContext` is not under src/;
it creates a server span with the given name and returns a context
carrying it, together with the span. -/
def StartSpanFromHTTPContext (ctx : HTTPCtx) (name : String) :
    HTTPCtx × HTTPSpan :=
  ({ spanNames := name :: ctx.spanNames }, { name := name })

/-- A `span.Stop(ctx, err)` call observed at the span's end. -/
structure StopEvent where
  spanName : String
  err : Option GoErr

/-- Modelled from the spec: `Span.Stop` is not under src/; stopping a span
records its end together with the error value it was passed. -/
def HTTPSpan.Stop (s : HTTPSpan) (_ctx : HTTPCtx) (err : Option GoErr) :
    StopEvent :=
  { spanName := s.name, err := err }

/-- A go-kit `endpoint.Endpoint`, its span side effects made explicit:
it maps a context and a request to a response, an error, and the list of
`Stop` calls it performed. -/
def Endpoint (ρ σ : Type) : Type :=
  HTTPCtx → ρ → (σ × Option GoErr) × List StopEvent

/-- `tracing.Tracer` (only carried through to span creation). -/
structure Tracer where
  label : String

/-- Modelled from the spec: `StartSpanFromHTTPContextWithTracer` is not
under src/; same as `StartSpanFromHTTPContext` with an explicit tracer. -/
def StartSpanFromHTTPContextWithTracer (ctx : HTTPCtx) (name : String)
    (_tracer : Tracer) : HTTPCtx × HTTPSpan :=
  StartSpanFromHTTPContext ctx name

/-- `tracing.InjectHTTPServerSpan(name)` applied to `next`:
`ctx, span := StartSpanFromHTTPContext(ctx, name)`, then
`defer span.Stop(ctx, err)`, then `response, err = next(ctx, request)`.
Go evaluates the arguments of a deferred call at the `defer` statement
itself, so the `err` handed to `Stop` is the value of the named return
`err` at that point — its zero value, nil — not the endpoint's error;
the deferred call itself runs after `next` returns. -/
def InjectHTTPServerSpan {ρ σ : Type} (name : String) (next : Endpoint ρ σ) :
    Endpoint ρ σ :=
  fun ctx request =>
    let sp := StartSpanFromHTTPContext ctx name
    let deferredCtx := sp.1
    let deferredErr : Option GoErr := none
    let r := next sp.1 request
    (r.1, r.2 ++ [sp.2.Stop deferredCtx deferredErr])

/-- `tracing.InjectHTTPServerSpanWithTracer(tracer, name)`: identical to
`InjectHTTPServerSpan` except the span is started with the tracer; the
deferred `Stop` has the same argument-evaluation behavior. -/
def InjectHTTPServerSpanWithTracer {ρ σ : Type} (tracer : Tracer)
    (name : String) (next : Endpoint ρ σ) : Endpoint ρ σ :=
  fun ctx request =>
    let sp := StartSpanFromHTTPContextWithTracer ctx name tracer
    let deferredCtx := sp.1
    let deferredErr : Option GoErr := none
    let r := next sp.1 request
    (r.1, r.2 ++ [sp.2.Stop deferredCtx deferredErr])

end Tracing

namespace Integrations

/-- The slice of `tracing.Span` the redis hook handles: a name and type. -/
structure Span where
  name : String
  type : Metricsbp.SpanType

/-- The slice of `context.Context` read and written here: the active
(sub-)span and the server span attached to the context. -/
structure Ctx where
  activeSpan : Option Span
  serverSpan : Option Span

/-- Modelled from the spec: `tracing.GetActiveSpan` is not under src/;
returns the current (sub-)span attached to the context, if any. -/
def GetActiveSpan (ctx : Ctx) : Option Span := ctx.activeSpan

/-- Modelled from the spec: `tracing.GetServerSpan` is not under src/;
returns the server span attached to the context, if any. -/
def GetServerSpan (ctx : Ctx) : Option Span := ctx.serverSpan

/-- A span lifecycle action performed through the tracing package. -/
inductive TraceEvent
  | createChild (parentName : String) (child : Span)
  | stopSpan (span : Span) (err : Option GoErr)

/-- Modelled from the spec: `Span.CreateClientChildForContext` is not under
src/; per the spec it constructs exactly one new client-type child span
with the given name and returns a context carrying it as the active span,
together with the child. -/
def Span.CreateClientChildForContext (parent : Span) (ctx : Ctx)
    (name : String) : Ctx × Span × List TraceEvent :=
  let child : Span := { name := name, type := .client }
  ({ ctx with activeSpan := some child }, child,
    [.createChild parent.name child])

/-- Modelled from the spec: `Span.Stop` is not under src/; it ends the
span with the given error value and reports no failure of its own. -/
def Span.Stop (s : Span) (_ctx : Ctx) (err : Option GoErr) :
    List TraceEvent × Option GoErr :=
  ([.stopSpan s err], none)

/-- `integrations.RedisSpanHook`: the redis.Hook wrapping commands and
pipelines in client spans. -/
structure RedisSpanHook where
  ClientName : String
deriving DecidableEq

/-- The slice of `redis.Cmder` the hook reads: `Name()` and `Err()`. -/
structure Cmd where
  name : String
  err : Option GoErr

/-- `RedisSpanHook.startChildSpan(ctx, cmdName)`: take the active span,
falling back to the server span; with no span, return the context
unchanged; otherwise create a client child span named
`<ClientName>.<cmdName>` attached to a new context. -/
def RedisSpanHook.startChildSpan (h : RedisSpanHook) (ctx : Ctx)
    (cmdName : String) : Ctx × List TraceEvent :=
  let span :=
    match GetActiveSpan ctx with
    | some s => some s
    | none => GetServerSpan ctx
  match span with
  | none => (ctx, [])
  | some span =>
    let name := h.ClientName ++ "." ++ cmdName
    let r := span.CreateClientChildForContext ctx name
    (r.1, r.2.2)

/-- `RedisSpanHook.endChildSpan(ctx, err)`: stop the active span with
`err` if there is one, else return nil having done nothing. -/
def RedisSpanHook.endChildSpan (_h : RedisSpanHook) (ctx : Ctx)
    (err : Option GoErr) : List TraceEvent × Option GoErr :=
  match GetActiveSpan ctx with
  | some span => span.Stop ctx err
  | none => ([], none)

/-- `RedisSpanHook.BeforeProcess(ctx, cmd)`: returns
`(h.startChildSpan(ctx, cmd.Name()), nil)`. -/
def RedisSpanHook.BeforeProcess (h : RedisSpanHook) (ctx : Ctx) (cmd : Cmd) :
    (Ctx × List TraceEvent) × Option GoErr :=
  (h.startChildSpan ctx cmd.name, none)

/-- `RedisSpanHook.AfterProcess(ctx, cmd)`: returns
`h.endChildSpan(ctx, cmd.Err())`. -/
def RedisSpanHook.AfterProcess (h : RedisSpanHook) (ctx : Ctx) (cmd : Cmd) :
    List TraceEvent × Option GoErr :=
  h.endChildSpan ctx cmd.err

/-- `RedisSpanHook.BeforeProcessPipeline(ctx, cmds)`: returns
`(h.startChildSpan(ctx, "pipeline"), nil)`. -/
def RedisSpanHook.BeforeProcessPipeline (h : RedisSpanHook) (ctx : Ctx)
    (_cmds : List Cmd) : (Ctx × List TraceEvent) × Option GoErr :=
  (h.startChildSpan ctx "pipeline", none)

/-- Modelled from the spec: package `batcherror` is not under src/.
`BatchError` collects errors; per the spec's canonical rule, `Add` never
adds nil entries and preserves non-nil entries in order. -/
structure BatchError where
  errors : List GoErr

/-- Modelled from the spec: `BatchError.Add`: a nil error is never added;
a non-nil error is appended, preserving order (duplicates allowed). -/
def BatchError.Add (b : BatchError) (err : Option GoErr) : BatchError :=
  match err with
  | none => b
  | some e => { errors := b.errors ++ [e] }

/-- Modelled from the spec: `BatchError.Compile` "produces a single
compiled error that is nil if all N are nil, and otherwise a non-nil
aggregate carrying all non-nil errors (order preserved, duplicates
allowed)". -/
def BatchError.Compile (b : BatchError) : Option GoErr :=
  match b.errors with
  | [] => none
  | es => some (GoErr.batch es)

/-- `RedisSpanHook.AfterProcessPipeline(ctx, cmds)`:
`var errs batcherror.BatchError; for _, cmd := range cmds {
errs.Add(cmd.Err()) }; return h.endChildSpan(ctx, errs.Compile())`. -/
def RedisSpanHook.AfterProcessPipeline (h : RedisSpanHook) (ctx : Ctx)
    (cmds : List Cmd) : List TraceEvent × Option GoErr :=
  let errs := cmds.foldl (fun b cmd => b.Add cmd.err) ({ errors := [] } : BatchError)
  h.endChildSpan ctx errs.Compile

/-- A concrete two-command batch (one failure) used as an example run. -/
def exampleCmds : List Cmd :=
  [{ name := "get", err := none },
   { name := "set", err := some (GoErr.simple "e1") }]

/-- A concrete context carrying a server span, used as an example run. -/
def exampleCtx : Ctx :=
  { activeSpan := none,
    serverSpan := some { name := "root", type := .server } }

end Integrations

namespace Redisbp

/-- Modelled from the spec: `redisbp.SpanHook` is not under src/; it is
the instrumentation Hook the factory attaches, constructed as
`SpanHook{ClientName: name}` (its behavior is that of
`integrations.RedisSpanHook`). -/
structure SpanHook where
  ClientName : String
deriving DecidableEq

/-- Which go-redis client type a monitored wrapper wraps
(`*redis.Client`, `*redis.ClusterClient`, `*redis.Ring`). -/
inductive ClientKind
  | client
  | cluster
  | ring
deriving DecidableEq

/-- The state of one go-redis client object: its kind, its attached hook
list, and the context it is bound to. -/
structure ClientState where
  kind : ClientKind
  hooks : List SpanHook
  boundCtx : Integrations.Ctx

/-- A heap of go-redis client objects.  Pointer identity (`*redis.Client`
and friends) is an address; addresses below `next` are allocated. -/
structure Heap where
  mem : Nat → ClientState
  next : Nat

/-- go-redis `client.AddHook(hook)`: appends the hook to the client's
hook list, mutating the object in place. -/
def Heap.addHook (h : Heap) (addr : Nat) (hook : SpanHook) : Heap :=
  { h with
    mem := fun a =>
      if a = addr then
        { h.mem addr with hooks := (h.mem addr).hooks ++ [hook] }
      else h.mem a }

/-- The monitored wrappers' `WithMonitoredContext(ctx)`, i.e. go-redis
`client.WithContext(ctx)`: clone the client struct, bind the clone to
`ctx`, and return the address of the fresh clone. -/
def Heap.withMonitoredContext (h : Heap) (addr : Nat)
    (ctx : Integrations.Ctx) : Nat × Heap :=
  (h.next,
   { mem := fun a =>
       if a = h.next then { h.mem addr with boundCtx := ctx } else h.mem a,
     next := h.next + 1 })

/-- `redisbp.MonitoredCmdableFactory`: holds (a pointer to) the monitored
base client. -/
structure MonitoredCmdableFactory where
  client : Nat

/-- `newMonitoredCmdableFactory(name, client)`:
`client.AddHook(SpanHook{ClientName: name})`, then store the client. -/
def newMonitoredCmdableFactory (name : String) (client : Nat) (h : Heap) :
    MonitoredCmdableFactory × Heap :=
  ({ client := client }, h.addHook client { ClientName := name })

/-- `NewMonitoredClientFactory(name, client)`: wraps the `*redis.Client`
in the monitored wrapper (a type-level step, leaving the object as is)
and delegates to `newMonitoredCmdableFactory`. -/
def NewMonitoredClientFactory (name : String) (client : Nat) (h : Heap) :
    MonitoredCmdableFactory × Heap :=
  newMonitoredCmdableFactory name client h

/-- `NewMonitoredClusterFactory(name, client)`: same, for
`*redis.ClusterClient`. -/
def NewMonitoredClusterFactory (name : String) (client : Nat) (h : Heap) :
    MonitoredCmdableFactory × Heap :=
  newMonitoredCmdableFactory name client h

/-- `NewMonitoredRingFactory(name, client)`: same, for `*redis.Ring`. -/
def NewMonitoredRingFactory (name : String) (client : Nat) (h : Heap) :
    MonitoredCmdableFactory × Heap :=
  newMonitoredCmdableFactory name client h

/-- `factory.BuildClient(ctx)`: returns
`f.client.WithMonitoredContext(ctx)`, a fresh request-bound clone. -/
def MonitoredCmdableFactory.BuildClient (f : MonitoredCmdableFactory)
    (h : Heap) (ctx : Integrations.Ctx) : Nat × Heap :=
  h.withMonitoredContext f.client ctx

/-- Any number of successive `BuildClient` calls, one per context in the
list; returns the addresses of the derived clients and the final heap. -/
def buildClients (f : MonitoredCmdableFactory) (h : Heap)
    (ctxs : List Integrations.Ctx) : List Nat × Heap :=
  match ctxs with
  | [] => ([], h)
  | ctx :: rest =>
    let r := f.BuildClient h ctx
    let rs := buildClients f r.2 rest
    (r.1 :: rs.1, rs.2)

/-- A tiny concrete heap: one allocated base client at address 0. -/
def exampleHeap : Heap :=
  { mem := fun _ =>
      { kind := .client, hooks := [],
        boundCtx := { activeSpan := none, serverSpan := none } },
    next := 1 }

end Redisbp

/-! ## Theorems -/

namespace Thriftbp

theorem wrapAll_eq_specCompose {α : Type} (name : String)
    (middlewares : List (Middleware α)) (f : α) :
    wrapAll name middlewares f = specCompose name middlewares f := by
  unfold wrapAll specCompose
  rw [List.foldl_reverse]

theorem wrapAll_nil {α : Type} (name : String) (f : α) :
    wrapAll name [] f = f := rfl

theorem lookupMap_addToMap_self {α : Type} (m : List (String × α))
    (name : String) (f : α) :
    lookupMap (addToMap m name f) name = some f := by
  induction m with
  | nil => simp [addToMap, lookupMap]
  | cons e rest ih =>
    by_cases he : e.1 = name
    · simp [addToMap, lookupMap, he]
    · simp [addToMap, lookupMap, he, ih]

theorem lookupMap_addToMap_ne {α : Type} (m : List (String × α))
    (k name : String) (f : α) (hk : k ≠ name) :
    lookupMap (addToMap m k f) name = lookupMap m name := by
  induction m with
  | nil => simp [addToMap, lookupMap, hk]
  | cons e rest ih =>
    by_cases he : e.1 = k
    · have hne : ¬ e.1 = name := by rw [he]; exact hk
      simp [addToMap, lookupMap, he, hne, hk]
    · by_cases hn : e.1 = name
      · simp [addToMap, lookupMap, he, hn, Ne.symm hk]
      · simp [addToMap, lookupMap, he, hn, ih]

theorem mem_keys_addToMap {α : Type} (m : List (String × α))
    (k : String) (f : α) (a : String) :
    a ∈ (addToMap m k f).map Prod.fst → a ∈ m.map Prod.fst ∨ a = k := by
  induction m with
  | nil =>
    intro ha
    simp only [addToMap, List.map_cons, List.map_nil, List.mem_singleton] at ha
    exact Or.inr ha
  | cons e rest ih =>
    intro ha
    by_cases he : e.1 = k
    · simp only [addToMap, if_pos he, List.map_cons, List.mem_cons] at ha
      simp only [List.map_cons, List.mem_cons]
      rcases ha with h1 | h2
      · exact Or.inr h1
      · exact Or.inl (Or.inr h2)
    · simp only [addToMap, if_neg he, List.map_cons, List.mem_cons] at ha
      simp only [List.map_cons, List.mem_cons]
      rcases ha with h1 | h2
      · exact Or.inl (Or.inl h1)
      · rcases ih h2 with h3 | h4
        · exact Or.inl (Or.inr h3)
        · exact Or.inr h4

theorem keys_nodup_addToMap {α : Type} (m : List (String × α))
    (k : String) (f : α) (hnd : (m.map Prod.fst).Nodup) :
    ((addToMap m k f).map Prod.fst).Nodup := by
  induction m with
  | nil => simp [addToMap]
  | cons e rest ih =>
    simp only [List.map_cons, List.nodup_cons] at hnd
    by_cases he : e.1 = k
    · simp only [addToMap, if_pos he, List.map_cons, List.nodup_cons]
      exact ⟨he ▸ hnd.1, hnd.2⟩
    · simp only [addToMap, if_neg he, List.map_cons, List.nodup_cons]
      refine ⟨?_, ih hnd.2⟩
      intro hc
      rcases mem_keys_addToMap rest k f e.1 hc with h1 | h2
      · exact hnd.1 h1
      · exact he h2

theorem pid_addToMap {α : Type} (p : Processor α) (name : String) (f : α) :
    (AddToProcessorMap p name f).pid = p.pid := rfl

theorem Wrap_eq_wrapFold {α : Type} (p : Processor α)
    (middlewares : List (Middleware α)) :
    Wrap p middlewares = wrapFold middlewares p.pmap p := rfl

theorem pid_wrapFold {α : Type} (middlewares : List (Middleware α))
    (l : List (String × α)) (acc : Processor α) :
    (wrapFold middlewares l acc).pid = acc.pid := by
  induction l generalizing acc with
  | nil => rfl
  | cons e rest ih => exact (ih _).trans (pid_addToMap acc e.1 _)

theorem lookupMap_eq_none_of_not_mem {α : Type} (l : List (String × α))
    (name : String) (h : name ∉ l.map Prod.fst) : lookupMap l name = none := by
  induction l with
  | nil => rfl
  | cons e rest ih =>
    simp only [List.map_cons, List.mem_cons, not_or] at h
    have hne : ¬ e.1 = name := fun hc => h.1 hc.symm
    simp only [lookupMap, if_neg hne]
    exact ih h.2

theorem lookup_wrapFold {α : Type} (middlewares : List (Middleware α))
    (l : List (String × α)) (acc : Processor α) (name : String)
    (hnd : (l.map Prod.fst).Nodup) :
    lookupMap (wrapFold middlewares l acc).pmap name
      = match lookupMap l name with
        | some v => some (wrapAll name middlewares v)
        | none => lookupMap acc.pmap name := by
  induction l generalizing acc with
  | nil => simp [wrapFold, lookupMap]
  | cons e rest ih =>
    simp only [List.map_cons, List.nodup_cons] at hnd
    have step : wrapFold middlewares (e :: rest) acc
        = wrapFold middlewares rest
            (AddToProcessorMap acc e.1 (wrapAll e.1 middlewares e.2)) := rfl
    rw [step, ih _ hnd.2]
    by_cases he : e.1 = name
    · subst he
      have hrest : lookupMap rest e.1 = none :=
        lookupMap_eq_none_of_not_mem rest e.1 hnd.1
      simp only [lookupMap, if_pos rfl, hrest, AddToProcessorMap]
      exact lookupMap_addToMap_self acc.pmap e.1 (wrapAll e.1 middlewares e.2)
    · simp only [lookupMap, if_neg he]
      cases hr : lookupMap rest name with
      | some v => simp
      | none =>
        simp only [AddToProcessorMap]
        exact lookupMap_addToMap_ne acc.pmap e.1 name _ he

theorem lookup_Wrap {α : Type} (p : Processor α)
    (middlewares : List (Middleware α)) (name : String)
    (hnd : (p.pmap.map Prod.fst).Nodup) :
    lookupMap (Wrap p middlewares).pmap name
      = (lookupMap p.pmap name).map (wrapAll name middlewares) := by
  rw [Wrap_eq_wrapFold, lookup_wrapFold _ _ _ _ hnd]
  cases h : lookupMap p.pmap name <;> simp [h]

end Thriftbp

/-- Claim C1: for every middleware list `[m0, …, mN]` and every operation
in the processor map, `Wrap` stores for that operation the wrapped handler
`m0 (m1 (… mN original))` — first middleware outermost, original handler
innermost — and with an empty middleware list the operation's handler is
unchanged. -/
theorem claim_C1_wrap_composition {α : Type} (p : Thriftbp.Processor α)
    (middlewares : List (Thriftbp.Middleware α)) (name : String) (f : α)
    (hnd : (p.pmap.map Prod.fst).Nodup)
    (hf : Thriftbp.lookupMap p.pmap name = some f) :
    Thriftbp.lookupMap (Thriftbp.Wrap p middlewares).pmap name
      = some (Thriftbp.specCompose name middlewares f)
    ∧ Thriftbp.lookupMap (Thriftbp.Wrap p []).pmap name = some f := by
  constructor
  · rw [Thriftbp.lookup_Wrap p middlewares name hnd, hf]
    simp [Thriftbp.wrapAll_eq_specCompose]
  · rw [Thriftbp.lookup_Wrap p [] name hnd, hf]
    rfl

/-- Witness for C1 at a concrete processor and middlewares. -/
theorem claim_C1_wrap_composition_witness :
    (((([("a", 5), ("b", 6)] : List (String × Nat)).map Prod.fst).Nodup
        ∧ Thriftbp.lookupMap ([("a", 5), ("b", 6)] : List (String × Nat)) "a"
            = some 5)
      ∧ (Thriftbp.lookupMap
            (Thriftbp.Wrap (⟨7, [("a", 5), ("b", 6)]⟩ : Thriftbp.Processor Nat)
              [fun _ x => x + 1, fun _ x => x * 2]).pmap "a"
          = some (Thriftbp.specCompose "a"
              ([fun _ x => x + 1, fun _ x => x * 2] :
                List (Thriftbp.Middleware Nat)) 5)
        ∧ Thriftbp.lookupMap
            (Thriftbp.Wrap (⟨7, [("a", 5), ("b", 6)]⟩ : Thriftbp.Processor Nat)
              []).pmap "a" = some 5)) :=
  ⟨⟨by decide, by decide⟩,
    claim_C1_wrap_composition (⟨7, [("a", 5), ("b", 6)]⟩ : Thriftbp.Processor Nat)
      [fun _ x => x + 1, fun _ x => x * 2] "a" 5 (by decide) (by decide)⟩

/-- Claim C7: `Wrap` returns the same processor object (its identity is
preserved), with every entry of the operation map replaced by that entry's
own wrapped handler, and wrapping is independent per operation: storing a
different handler at one operation name leaves the wrapped handler at
every other name unchanged. -/
theorem claim_C7_wrap_frame {α : Type} (p : Thriftbp.Processor α)
    (middlewares : List (Thriftbp.Middleware α))
    (hnd : (p.pmap.map Prod.fst).Nodup) :
    (Thriftbp.Wrap p middlewares).pid = p.pid
    ∧ (∀ name, Thriftbp.lookupMap (Thriftbp.Wrap p middlewares).pmap name
        = (Thriftbp.lookupMap p.pmap name).map
            (Thriftbp.wrapAll name middlewares))
    ∧ (∀ (name other : String) (g : α), other ≠ name →
        Thriftbp.lookupMap
            (Thriftbp.Wrap (Thriftbp.AddToProcessorMap p name g)
              middlewares).pmap other
          = Thriftbp.lookupMap (Thriftbp.Wrap p middlewares).pmap other) := by
  refine ⟨?_, ?_, ?_⟩
  · rw [Thriftbp.Wrap_eq_wrapFold]
    exact Thriftbp.pid_wrapFold middlewares p.pmap p
  · intro name
    exact Thriftbp.lookup_Wrap p middlewares name hnd
  · intro name other g hno
    have hnd2 : (((Thriftbp.AddToProcessorMap p name g).pmap.map Prod.fst)).Nodup :=
      Thriftbp.keys_nodup_addToMap p.pmap name g hnd
    rw [Thriftbp.lookup_Wrap _ middlewares other hnd2,
      Thriftbp.lookup_Wrap p middlewares other hnd]
    show (Thriftbp.lookupMap (Thriftbp.addToMap p.pmap name g) other).map _
        = (Thriftbp.lookupMap p.pmap other).map _
    rw [Thriftbp.lookupMap_addToMap_ne p.pmap name other g (fun hc => hno hc.symm)]

/-- Witness for C7 at a concrete processor. -/
theorem claim_C7_wrap_frame_witness :
    ((([("a", 1), ("b", 2)] : List (String × Nat)).map Prod.fst).Nodup
      ∧ ((Thriftbp.Wrap (⟨3, [("a", 1), ("b", 2)]⟩ : Thriftbp.Processor Nat)
            [fun _ x => x + 1]).pid = 3
        ∧ (∀ name, Thriftbp.lookupMap
              (Thriftbp.Wrap (⟨3, [("a", 1), ("b", 2)]⟩ : Thriftbp.Processor Nat)
                [fun _ x => x + 1]).pmap name
            = (Thriftbp.lookupMap ([("a", 1), ("b", 2)] : List (String × Nat))
                name).map (Thriftbp.wrapAll name [fun _ x => x + 1]))
        ∧ (∀ (name other : String) (g : Nat), other ≠ name →
            Thriftbp.lookupMap
                (Thriftbp.Wrap
                  (Thriftbp.AddToProcessorMap
                    (⟨3, [("a", 1), ("b", 2)]⟩ : Thriftbp.Processor Nat) name g)
                  [fun _ x => x + 1]).pmap other
              = Thriftbp.lookupMap
                  (Thriftbp.Wrap
                    (⟨3, [("a", 1), ("b", 2)]⟩ : Thriftbp.Processor Nat)
                    [fun _ x => x + 1]).pmap other))) :=
  ⟨by decide,
    claim_C7_wrap_frame (⟨3, [("a", 1), ("b", 2)]⟩ : Thriftbp.Processor Nat)
      [fun _ x => x + 1] (by decide)⟩

namespace Metricsbp

theorem string_append_ne {s a b : String} (h : a ≠ b) : s ++ a ≠ s ++ b := by
  intro hc
  apply h
  have hd := congrArg String.data hc
  simp only [String.data_append] at hd
  exact String.ext (List.append_cancel_left hd)

theorem success_path_ne_fail_path (n : String) :
    n ++ "." ++ success ≠ n ++ "." ++ fail := by
  have : (n ++ ".") ++ success ≠ (n ++ ".") ++ fail :=
    string_append_ne (by decide)
  simpa [String.append_assoc] using this

end Metricsbp

/-- Claim C2: every `OnEnd(span, err)` call emits exactly one histogram
sample from the duration timer, and increments exactly one of the two
outcome counters by 1 — the one at `<metricPath>.success` when `err` is
nil, the one at `<metricPath>.fail` otherwise — never zero, never both. -/
theorem claim_C2_onEnd_outcome (h : Metricsbp.SpanHook)
    (span : Metricsbp.Span) (err : Option GoErr) :
    Metricsbp.histogramSamples (h.OnEnd span err).1 = 1
    ∧ Metricsbp.counterIncrements (h.OnEnd span err).1
        (h.Name ++ "." ++ Metricsbp.success)
        = (match err with | none => 1 | some _ => 0)
    ∧ Metricsbp.counterIncrements (h.OnEnd span err).1
        (h.Name ++ "." ++ Metricsbp.fail)
        = (match err with | none => 0 | some _ => 1) := by
  cases err with
  | none =>
    refine ⟨rfl, ?_, ?_⟩
    · simp [Metricsbp.SpanHook.OnEnd, Metricsbp.counterIncrements]
    · simp only [Metricsbp.SpanHook.OnEnd, Metricsbp.counterIncrements,
        List.foldl_cons, List.foldl_nil]
      rw [if_neg (Metricsbp.success_path_ne_fail_path h.Name)]
  | some e =>
    refine ⟨rfl, ?_, ?_⟩
    · simp only [Metricsbp.SpanHook.OnEnd, Metricsbp.counterIncrements,
        List.foldl_cons, List.foldl_nil]
      rw [if_neg (fun hc => Metricsbp.success_path_ne_fail_path h.Name hc.symm)]
    · simp [Metricsbp.SpanHook.OnEnd, Metricsbp.counterIncrements]

/-- Claim C4: a hook built by `newSpanHook` with prefix `p` over span `s`
has metric path exactly `p.<spanType>.<spanName>` (also the path of its
duration histogram), and `OnCreateChild` registers on the child exactly
one fresh hook whose prefix is the parent hook's own full metric path, so
the child hook's path is `<parentPath>.<childType>.<childName>` —
grandchildren get chained dotted names mirroring the span tree. -/
theorem claim_C4_metric_path (pfx : String) (metrics : Metricsbp.Statsd)
    (s : Metricsbp.Span) (h : Metricsbp.SpanHook) (child : Metricsbp.Span) :
    (Metricsbp.newSpanHook pfx metrics s).Name
        = pfx ++ "." ++ s.type.render ++ "." ++ s.name
    ∧ (Metricsbp.newSpanHook pfx metrics s).timerPath
        = (Metricsbp.newSpanHook pfx metrics s).Name
    ∧ ((h.OnCreateChild child).1).hooks
        = child.hooks ++ [Metricsbp.newSpanHook h.Name h.Metrics child]
    ∧ (Metricsbp.newSpanHook h.Name h.Metrics child).Name
        = h.Name ++ "." ++ child.type.render ++ "." ++ child.name :=
  ⟨rfl, rfl, rfl, rfl⟩

/-- Claim C3 (code bug, shown at a failing endpoint): the wrapped endpoint
of `InjectHTTPServerSpan` (and of `InjectHTTPServerSpanWithTracer`)
returns the endpoint's response and error to the caller unchanged, but
stops the server span with nil instead of the endpoint's error: Go
evaluates the arguments of `defer span.Stop(ctx, err)` at the `defer`
statement, while the named return `err` still holds its zero value —
contradicting the function's own documentation, "If the endpoint returns
an error, that will be passed to span.Stop". -/
theorem claim_C3_defer_stop_bug :
    (Tracing.InjectHTTPServerSpan "op"
        (fun _ _ => (((7 : Nat), some (GoErr.simple "boom")), []))
        { spanNames := [] } (0 : Nat)).1
      = ((7 : Nat), some (GoErr.simple "boom"))
    ∧ (Tracing.InjectHTTPServerSpan "op"
        (fun _ _ => (((7 : Nat), some (GoErr.simple "boom")), []))
        { spanNames := [] } (0 : Nat)).2
      = [{ spanName := "op", err := none }]
    ∧ ¬ ((Tracing.InjectHTTPServerSpan "op"
        (fun _ _ => (((7 : Nat), some (GoErr.simple "boom")), []))
        { spanNames := [] } (0 : Nat)).2
      = [{ spanName := "op", err := some (GoErr.simple "boom") }])
    ∧ (Tracing.InjectHTTPServerSpanWithTracer { label := "t" } "op"
        (fun _ _ => (((7 : Nat), some (GoErr.simple "boom")), []))
        { spanNames := [] } (0 : Nat)).2
      = [{ spanName := "op", err := none }] := by
  refine ⟨rfl, rfl, ?_, rfl⟩
  intro hc
  have hc2 : ([{ spanName := "op", err := none }] : List Tracing.StopEvent)
      = [{ spanName := "op", err := some (GoErr.simple "boom") }] := hc
  simp at hc2

namespace Integrations

theorem foldl_add_errors (cmds : List Cmd) (l : List GoErr) :
    (cmds.foldl (fun b cmd => b.Add cmd.err)
        ({ errors := l } : BatchError)).errors
      = l ++ cmds.filterMap Cmd.err := by
  induction cmds generalizing l with
  | nil => simp
  | cons c rest ih =>
    simp only [List.foldl_cons]
    cases hc : c.err with
    | none =>
      show (List.foldl (fun b cmd => b.Add cmd.err)
          ({ errors := l } : BatchError) rest).errors
        = l ++ List.filterMap Cmd.err (c :: rest)
      rw [ih l]
      simp [List.filterMap_cons, hc]
    | some e =>
      show (List.foldl (fun b cmd => b.Add cmd.err)
          ({ errors := l ++ [e] } : BatchError) rest).errors
        = l ++ List.filterMap Cmd.err (c :: rest)
      rw [ih (l ++ [e])]
      simp [List.filterMap_cons, hc]

theorem compile_unfold (b : BatchError) :
    b.Compile = match b.errors with
      | [] => none
      | es => some (GoErr.batch es) := rfl

theorem startChildSpan_spec (h : RedisSpanHook) (ctx : Ctx)
    (cmdName : String)
    (hs : ctx.activeSpan.isSome ∨ ctx.serverSpan.isSome) :
    ∃ parent, h.startChildSpan ctx cmdName
      = ({ ctx with
            activeSpan :=
              some { name := h.ClientName ++ "." ++ cmdName, type := .client } },
         [.createChild parent
            { name := h.ClientName ++ "." ++ cmdName, type := .client }]) := by
  cases ha : ctx.activeSpan with
  | some s =>
    refine ⟨s.name, ?_⟩
    simp [RedisSpanHook.startChildSpan, GetActiveSpan, ha,
      Span.CreateClientChildForContext]
  | none =>
    cases hv : ctx.serverSpan with
    | some s =>
      refine ⟨s.name, ?_⟩
      simp [RedisSpanHook.startChildSpan, GetActiveSpan, GetServerSpan, ha, hv,
        Span.CreateClientChildForContext]
    | none => simp [ha, hv] at hs

end Integrations

/-- Claim C5 (spec-modelled `batcherror`): for a pipelined batch, the
compiled aggregate handed to the batch span's end is nil iff no command
failed, and otherwise is a non-nil composite carrying all failing
commands' errors in order. -/
theorem claim_C5_batch_error (h : Integrations.RedisSpanHook)
    (ctx : Integrations.Ctx) (cmds : List Integrations.Cmd) :
    h.AfterProcessPipeline ctx cmds
      = h.endChildSpan ctx
          ((cmds.foldl (fun b cmd => b.Add cmd.err)
            ({ errors := [] } : Integrations.BatchError)).Compile)
    ∧ ((cmds.foldl (fun b cmd => b.Add cmd.err)
          ({ errors := [] } : Integrations.BatchError)).Compile = none
        ↔ (cmds.filterMap Integrations.Cmd.err).length = 0)
    ∧ (∀ e, (cmds.foldl (fun b cmd => b.Add cmd.err)
          ({ errors := [] } : Integrations.BatchError)).Compile = some e →
        e = GoErr.batch (cmds.filterMap Integrations.Cmd.err)
          ∧ (cmds.filterMap Integrations.Cmd.err).length ≠ 0) := by
  have herr : (cmds.foldl (fun b cmd => b.Add cmd.err)
      ({ errors := [] } : Integrations.BatchError)).errors
      = cmds.filterMap Integrations.Cmd.err := by
    simpa using Integrations.foldl_add_errors cmds []
  refine ⟨rfl, ?_, ?_⟩
  · rw [Integrations.compile_unfold, herr]
    cases hf : cmds.filterMap Integrations.Cmd.err with
    | nil => simp
    | cons x xs => simp
  · intro e he
    rw [Integrations.compile_unfold, herr] at he
    cases hf : cmds.filterMap Integrations.Cmd.err with
    | nil =>
      rw [hf] at he
      simp at he
    | cons x xs =>
      rw [hf] at he
      simp only [Option.some.injEq] at he
      exact ⟨he.symm, by simp⟩

/-- Witness for C5 at a concrete two-command batch with one failure. -/
theorem claim_C5_batch_error_witness :
    (Integrations.RedisSpanHook.mk "c").AfterProcessPipeline
        { activeSpan := none, serverSpan := none } Integrations.exampleCmds
      = (Integrations.RedisSpanHook.mk "c").endChildSpan
          { activeSpan := none, serverSpan := none }
          ((Integrations.exampleCmds.foldl (fun b cmd => b.Add cmd.err)
            ({ errors := [] } : Integrations.BatchError)).Compile)
    ∧ (((Integrations.exampleCmds.foldl (fun b cmd => b.Add cmd.err)
          ({ errors := [] } : Integrations.BatchError)).Compile = none)
        ↔ (Integrations.exampleCmds.filterMap Integrations.Cmd.err).length = 0)
    ∧ (∀ e, (Integrations.exampleCmds.foldl (fun b cmd => b.Add cmd.err)
          ({ errors := [] } : Integrations.BatchError)).Compile = some e →
        e = GoErr.batch
            (Integrations.exampleCmds.filterMap Integrations.Cmd.err)
          ∧ (Integrations.exampleCmds.filterMap
              Integrations.Cmd.err).length ≠ 0) :=
  claim_C5_batch_error (Integrations.RedisSpanHook.mk "c")
    { activeSpan := none, serverSpan := none } Integrations.exampleCmds

/-- Claim C6, counterexample: with a propagation context carrying neither
an active nor a server span, a command processed through the hook creates
no child span at all — not exactly one — so the claim's universal
statement fails at this input. -/
theorem claim_C6_counterexample :
    ¬ (((Integrations.RedisSpanHook.mk "c").BeforeProcess
          { activeSpan := none, serverSpan := none }
          { name := "get", err := none }).1.2.length = 1) := by
  intro hc
  exact absurd (show (0 : Nat) = 1 from hc) (by decide)

/-- Claim C6 (amended: provided the propagation context carries an active
or a server span): a single command creates exactly one child client span
named `<ClientName>.<command name>`, and a pipelined batch creates exactly
one child client span named `<ClientName>.pipeline`, regardless of the
batch's contents; both calls return a nil error. -/
theorem claim_C6_child_span_naming (h : Integrations.RedisSpanHook)
    (ctx : Integrations.Ctx) (cmd : Integrations.Cmd)
    (cmds : List Integrations.Cmd)
    (hs : ctx.activeSpan.isSome ∨ ctx.serverSpan.isSome) :
    (h.BeforeProcess ctx cmd).2 = none
    ∧ (∃ parent, (h.BeforeProcess ctx cmd).1.2
        = [Integrations.TraceEvent.createChild parent
            { name := h.ClientName ++ "." ++ cmd.name,
              type := Metricsbp.SpanType.client }])
    ∧ (h.BeforeProcessPipeline ctx cmds).2 = none
    ∧ (∃ parent, (h.BeforeProcessPipeline ctx cmds).1.2
        = [Integrations.TraceEvent.createChild parent
            { name := h.ClientName ++ "." ++ "pipeline",
              type := Metricsbp.SpanType.client }]) := by
  obtain ⟨p1, hp1⟩ := Integrations.startChildSpan_spec h ctx cmd.name hs
  obtain ⟨p2, hp2⟩ := Integrations.startChildSpan_spec h ctx "pipeline" hs
  refine ⟨rfl, ⟨p1, ?_⟩, rfl, ⟨p2, ?_⟩⟩
  · show (h.startChildSpan ctx cmd.name).2 = _
    rw [hp1]
  · show (h.startChildSpan ctx "pipeline").2 = _
    rw [hp2]

/-- Witness for the amended C6 at a concrete context with a server span. -/
theorem claim_C6_child_span_naming_witness :
    (Integrations.exampleCtx.activeSpan.isSome
      ∨ Integrations.exampleCtx.serverSpan.isSome)
    ∧ (((Integrations.RedisSpanHook.mk "c").BeforeProcess
          Integrations.exampleCtx { name := "get", err := none }).2 = none
      ∧ (∃ parent, ((Integrations.RedisSpanHook.mk "c").BeforeProcess
            Integrations.exampleCtx { name := "get", err := none }).1.2
          = [Integrations.TraceEvent.createChild parent
              { name := "c" ++ "." ++ "get",
                type := Metricsbp.SpanType.client }])
      ∧ (((Integrations.RedisSpanHook.mk "c").BeforeProcessPipeline
            Integrations.exampleCtx Integrations.exampleCmds).2 = none)
      ∧ (∃ parent, ((Integrations.RedisSpanHook.mk "c").BeforeProcessPipeline
            Integrations.exampleCtx Integrations.exampleCmds).1.2
          = [Integrations.TraceEvent.createChild parent
              { name := "c" ++ "." ++ "pipeline",
                type := Metricsbp.SpanType.client }])) :=
  ⟨Or.inr rfl,
    claim_C6_child_span_naming (Integrations.RedisSpanHook.mk "c")
      Integrations.exampleCtx { name := "get", err := none }
      Integrations.exampleCmds (Or.inr rfl)⟩

/-- Claim C10: with neither an active span nor a server span in the
propagation context, the hook is a no-op at its interface:
`BeforeProcess` and `BeforeProcessPipeline` return the context unchanged
with a nil error and create no child span, and `AfterProcess` /
`AfterProcessPipeline` return nil without stopping any span. -/
theorem claim_C10_noop_without_span (h : Integrations.RedisSpanHook)
    (ctx : Integrations.Ctx) (cmd : Integrations.Cmd)
    (cmds : List Integrations.Cmd)
    (ha : ctx.activeSpan = none) (hv : ctx.serverSpan = none) :
    h.BeforeProcess ctx cmd = ((ctx, []), none)
    ∧ h.BeforeProcessPipeline ctx cmds = ((ctx, []), none)
    ∧ h.AfterProcess ctx cmd = ([], none)
    ∧ h.AfterProcessPipeline ctx cmds = ([], none) := by
  refine ⟨?_, ?_, ?_, ?_⟩ <;>
    simp [Integrations.RedisSpanHook.BeforeProcess,
      Integrations.RedisSpanHook.BeforeProcessPipeline,
      Integrations.RedisSpanHook.AfterProcess,
      Integrations.RedisSpanHook.AfterProcessPipeline,
      Integrations.RedisSpanHook.startChildSpan,
      Integrations.RedisSpanHook.endChildSpan,
      Integrations.GetActiveSpan, Integrations.GetServerSpan, ha, hv]

/-- Witness for C10 at the empty context. -/
theorem claim_C10_noop_without_span_witness :
    (({ activeSpan := none, serverSpan := none } :
        Integrations.Ctx).activeSpan = none
      ∧ ({ activeSpan := none, serverSpan := none } :
        Integrations.Ctx).serverSpan = none)
    ∧ ((Integrations.RedisSpanHook.mk "c").BeforeProcess
          { activeSpan := none, serverSpan := none }
          { name := "get", err := none }
        = (({ activeSpan := none, serverSpan := none }, []), none)
      ∧ (Integrations.RedisSpanHook.mk "c").BeforeProcessPipeline
          { activeSpan := none, serverSpan := none } Integrations.exampleCmds
        = (({ activeSpan := none, serverSpan := none }, []), none)
      ∧ (Integrations.RedisSpanHook.mk "c").AfterProcess
          { activeSpan := none, serverSpan := none }
          { name := "get", err := none }
        = ([], none)
      ∧ (Integrations.RedisSpanHook.mk "c").AfterProcessPipeline
          { activeSpan := none, serverSpan := none } Integrations.exampleCmds
        = ([], none)) :=
  ⟨⟨rfl, rfl⟩,
    claim_C10_noop_without_span (Integrations.RedisSpanHook.mk "c")
      { activeSpan := none, serverSpan := none }
      { name := "get", err := none } Integrations.exampleCmds rfl rfl⟩

namespace Redisbp

theorem buildClient_next (f : MonitoredCmdableFactory) (h : Heap)
    (ctx : Integrations.Ctx) :
    (f.BuildClient h ctx).1 = h.next
    ∧ (f.BuildClient h ctx).2.next = h.next + 1 := ⟨rfl, rfl⟩

theorem buildClient_mem_old (f : MonitoredCmdableFactory) (h : Heap)
    (ctx : Integrations.Ctx) (a : Nat) (ha : a < h.next) :
    (f.BuildClient h ctx).2.mem a = h.mem a := by
  show (if a = h.next then _ else h.mem a) = h.mem a
  rw [if_neg (Nat.ne_of_lt ha)]

theorem buildClients_preserves (f : MonitoredCmdableFactory)
    (ctxs : List Integrations.Ctx) :
    ∀ (h : Heap) (a : Nat), a < h.next →
      (buildClients f h ctxs).2.mem a = h.mem a
      ∧ h.next ≤ (buildClients f h ctxs).2.next
      ∧ ∀ b ∈ (buildClients f h ctxs).1, h.next ≤ b := by
  induction ctxs with
  | nil =>
    intro h a ha
    exact ⟨rfl, Nat.le_refl _, by intro b hb; simp [buildClients] at hb⟩
  | cons ctx rest ih =>
    intro h a ha
    have hstep1 : (f.BuildClient h ctx).2.next = h.next + 1 := rfl
    have ha2 : a < (f.BuildClient h ctx).2.next := by
      rw [hstep1]; exact Nat.lt_succ_of_lt ha
    obtain ⟨hm, hn, hb⟩ := ih (f.BuildClient h ctx).2 a ha2
    have hunf1 : (buildClients f h (ctx :: rest)).2
        = (buildClients f (f.BuildClient h ctx).2 rest).2 := rfl
    have hunf2 : (buildClients f h (ctx :: rest)).1
        = (f.BuildClient h ctx).1
          :: (buildClients f (f.BuildClient h ctx).2 rest).1 := rfl
    refine ⟨?_, ?_, ?_⟩
    · rw [hunf1, hm, buildClient_mem_old f h ctx a ha]
    · rw [hunf1]
      exact Nat.le_trans (Nat.le_trans (Nat.le_succ _) (le_of_eq hstep1.symm)) hn
    · intro b hbmem
      rw [hunf2] at hbmem
      rcases List.mem_cons.mp hbmem with h1 | h2
      · rw [h1, (buildClient_next f h ctx).1]
      · have := hb b h2
        rw [hstep1] at this
        exact Nat.le_of_succ_le this

end Redisbp

/-- Claim C8: each of the three factory constructors attaches exactly one
instrumentation hook, tagged with the given name, to the base client at
construction (appended to its hook list, changing nothing else on the heap
and allocating nothing), and the only factory operation, `BuildClient`,
never changes an allocated base client afterwards. -/
theorem claim_C8_factory_attaches_one_hook (name : String) (client : Nat)
    (h : Redisbp.Heap) :
    ((Redisbp.newMonitoredCmdableFactory name client h).1.client = client
      ∧ ((Redisbp.newMonitoredCmdableFactory name client h).2.mem client).hooks
          = (h.mem client).hooks ++ [{ ClientName := name }]
      ∧ ((Redisbp.newMonitoredCmdableFactory name client h).2.mem client).kind
          = (h.mem client).kind
      ∧ ((Redisbp.newMonitoredCmdableFactory name client h).2.mem client).boundCtx
          = (h.mem client).boundCtx
      ∧ (∀ a, a ≠ client →
          (Redisbp.newMonitoredCmdableFactory name client h).2.mem a = h.mem a)
      ∧ (Redisbp.newMonitoredCmdableFactory name client h).2.next = h.next)
    ∧ Redisbp.NewMonitoredClientFactory name client h
        = Redisbp.newMonitoredCmdableFactory name client h
    ∧ Redisbp.NewMonitoredClusterFactory name client h
        = Redisbp.newMonitoredCmdableFactory name client h
    ∧ Redisbp.NewMonitoredRingFactory name client h
        = Redisbp.newMonitoredCmdableFactory name client h
    ∧ (∀ (h2 : Redisbp.Heap) (ctx : Integrations.Ctx)
        (f : Redisbp.MonitoredCmdableFactory), f.client < h2.next →
        (f.BuildClient h2 ctx).2.mem f.client = h2.mem f.client) := by
  refine ⟨⟨rfl, ?_, ?_, ?_, ?_, rfl⟩, rfl, rfl, rfl, ?_⟩
  · simp [Redisbp.newMonitoredCmdableFactory, Redisbp.Heap.addHook]
  · simp [Redisbp.newMonitoredCmdableFactory, Redisbp.Heap.addHook]
  · simp [Redisbp.newMonitoredCmdableFactory, Redisbp.Heap.addHook]
  · intro a hne
    simp [Redisbp.newMonitoredCmdableFactory, Redisbp.Heap.addHook, hne]
  · intro h2 ctx f hwf
    exact Redisbp.buildClient_mem_old f h2 ctx f.client hwf

/-- Witness for C8 at a concrete heap, including a concrete discharge of
the inner `BuildClient`-frame hypothesis. -/
theorem claim_C8_factory_attaches_one_hook_witness :
    ((0 : Nat) < Redisbp.exampleHeap.next
      ∧ ((Redisbp.MonitoredCmdableFactory.mk 0).BuildClient
          Redisbp.exampleHeap { activeSpan := none, serverSpan := none }).2.mem 0
        = Redisbp.exampleHeap.mem 0)
    ∧ ((Redisbp.newMonitoredCmdableFactory "n" 0 Redisbp.exampleHeap).2.mem 0).hooks
        = (Redisbp.exampleHeap.mem 0).hooks ++ [{ ClientName := "n" }]
    ∧ (Redisbp.newMonitoredCmdableFactory "n" 0 Redisbp.exampleHeap).2.next
        = Redisbp.exampleHeap.next :=
  ⟨⟨by decide,
    (claim_C8_factory_attaches_one_hook "n" 0 Redisbp.exampleHeap).2.2.2.2
      Redisbp.exampleHeap { activeSpan := none, serverSpan := none }
      (Redisbp.MonitoredCmdableFactory.mk 0) (by decide)⟩,
    (claim_C8_factory_attaches_one_hook "n" 0 Redisbp.exampleHeap).1.2.1,
    (claim_C8_factory_attaches_one_hook "n" 0 Redisbp.exampleHeap).1.2.2.2.2.2⟩

/-- Claim C9: `BuildClient(ctx)` returns a fresh client distinct from the
base client, equal to the base client except bound to `ctx`, without
mutating the factory's shared state; over any number of calls the stored
base client (hook list included) is untouched and every returned client is
distinct from it. -/
theorem claim_C9_buildclient_frame (f : Redisbp.MonitoredCmdableFactory)
    (h : Redisbp.Heap) (ctx : Integrations.Ctx)
    (ctxs : List Integrations.Ctx) (hwf : f.client < h.next) :
    ((f.BuildClient h ctx).1 ≠ f.client
      ∧ (f.BuildClient h ctx).2.mem (f.BuildClient h ctx).1
          = { h.mem f.client with boundCtx := ctx }
      ∧ (f.BuildClient h ctx).2.mem f.client = h.mem f.client)
    ∧ ((Redisbp.buildClients f h ctxs).2.mem f.client = h.mem f.client
      ∧ ∀ b ∈ (Redisbp.buildClients f h ctxs).1, b ≠ f.client) := by
  obtain ⟨hm, _hn, hb⟩ := Redisbp.buildClients_preserves f ctxs h f.client hwf
  refine ⟨⟨?_, ?_, ?_⟩, hm, ?_⟩
  · rw [(Redisbp.buildClient_next f h ctx).1]
    exact (Nat.ne_of_lt hwf).symm
  · show (if h.next = h.next then _ else _) = _
    rw [if_pos rfl]
  · exact Redisbp.buildClient_mem_old f h ctx f.client hwf
  · intro b hbmem
    have := hb b hbmem
    intro hc
    rw [hc] at this
    exact absurd hwf (Nat.not_lt_of_le this)

/-- Witness for C9 at a concrete factory, heap and context list. -/
theorem claim_C9_buildclient_frame_witness :
    (0 : Nat) < Redisbp.exampleHeap.next
    ∧ (((Redisbp.MonitoredCmdableFactory.mk 0).BuildClient Redisbp.exampleHeap
          { activeSpan := none, serverSpan := none }).1 ≠ 0
      ∧ ((Redisbp.MonitoredCmdableFactory.mk 0).BuildClient Redisbp.exampleHeap
          { activeSpan := none, serverSpan := none }).2.mem
          (((Redisbp.MonitoredCmdableFactory.mk 0).BuildClient
            Redisbp.exampleHeap
            { activeSpan := none, serverSpan := none }).1)
        = { Redisbp.exampleHeap.mem 0 with
              boundCtx := { activeSpan := none, serverSpan := none } }
      ∧ ((Redisbp.MonitoredCmdableFactory.mk 0).BuildClient Redisbp.exampleHeap
          { activeSpan := none, serverSpan := none }).2.mem 0
        = Redisbp.exampleHeap.mem 0)
    ∧ ((Redisbp.buildClients (Redisbp.MonitoredCmdableFactory.mk 0)
          Redisbp.exampleHeap
          [{ activeSpan := none, serverSpan := none },
           { activeSpan := none, serverSpan := none }]).2.mem 0
        = Redisbp.exampleHeap.mem 0
      ∧ ∀ b ∈ (Redisbp.buildClients (Redisbp.MonitoredCmdableFactory.mk 0)
          Redisbp.exampleHeap
          [{ activeSpan := none, serverSpan := none },
           { activeSpan := none, serverSpan := none }]).1, b ≠ 0) :=
  ⟨by decide,
    (claim_C9_buildclient_frame (Redisbp.MonitoredCmdableFactory.mk 0)
      Redisbp.exampleHeap { activeSpan := none, serverSpan := none }
      [{ activeSpan := none, serverSpan := none },
       { activeSpan := none, serverSpan := none }] (by decide)).1,
    (claim_C9_buildclient_frame (Redisbp.MonitoredCmdableFactory.mk 0)
      Redisbp.exampleHeap { activeSpan := none, serverSpan := none }
      [{ activeSpan := none, serverSpan := none },
       { activeSpan := none, serverSpan := none }] (by decide)).2⟩
